import Mathlib

/-!
Shallow embedding of the synthetic-geometry / membrane-extraction pipeline of
the toy-model notebooks (3d-toy-model.ipynb and variants):

- `spheres` / `sphere_mask`: the Geometry Synthesizer producing a Label Grid,
- `img_membrane_mask`: the Membrane Extractor (per-label binary dilation loop),
- `img_cell_mask` / `img`: the Compartment Classifier.

Grids are modelled as total functions on integer coordinates `(z, y, x)`;
only in-bounds voxels are meaningful, and every operation that in numpy reads
past the array border (the zero-padding of `binary_dilation`) consults
`inBounds` explicitly, so out-of-range reads behave as scipy's zero padding.
-/

namespace ToyModels

/-- Validity of a voxel coordinate for a `Z × Y × X` numpy array. -/
def inBounds (Z Y X : Nat) (z y x : Int) : Bool :=
  decide (0 ≤ z) && decide (z < (Z : Int)) &&
  decide (0 ≤ y) && decide (y < (Y : Int)) &&
  decide (0 ≤ x) && decide (x < (X : Int))

/-- A Label Grid (`img_indexed` in the notebooks): an object index per voxel. -/
abbrev LGrid := Int → Int → Int → Nat

/-- A boolean voxel mask (same shape as the Label Grid). -/
abbrev BMask := Int → Int → Int → Bool

/-- The binary indicator image `(img_indexed == index)` for one label, false
outside the array (matching scipy's zero padding of the dilation input). -/
def indicator (Z Y X : Nat) (g : LGrid) (index : Nat) (z y x : Int) : Bool :=
  inBounds Z Y X z y x && (g z y x == index)

/-- Offsets of the default structuring element of `ndi.binary_dilation` in 3D:
`generate_binary_structure(rank=3, connectivity=1)`, the six face neighbours
plus the centre. -/
def structOffsets : List (Int × Int × Int) :=
  [(0, 0, 0), (-1, 0, 0), (1, 0, 0), (0, -1, 0), (0, 1, 0), (0, 0, -1), (0, 0, 1)]

/-- One pass of `ndi.binary_dilation` with the default (connectivity-1)
structuring element: a voxel is set when any structuring-element neighbour is
set in the input. -/
def binary_dilation (m : BMask) (z y x : Int) : Bool :=
  structOffsets.any fun o => m (z + o.1) (y + o.2.1) (x + o.2.2)

/-- All in-bounds voxel coordinates of a `Z × Y × X` grid. -/
def coordList (Z Y X : Nat) : List (Int × Int × Int) :=
  (List.range Z).flatMap fun z =>
    (List.range Y).flatMap fun y =>
      (List.range X).map fun x => ((z : Int), (y : Int), (x : Int))

/-- `img_indexed.max()`: the largest label present in the grid (0 for an empty
coordinate range, which numpy would reject; the notebooks only use nonempty
grids). -/
def gridMax (Z Y X : Nat) (g : LGrid) : Nat :=
  (coordList Z Y X).foldl (fun m p => max m (g p.1 p.2.1 p.2.2)) 0

/-- The Membrane Extractor of the 3D notebook:

    img_membrane_mask = np.zeros(img_indexed.shape).astype(bool)
    for index in range(img_indexed.max()):
        img = (img_indexed == index).astype(np.uint8)
        img_membrane_mask |= ndi.binary_dilation(img) != img

pointwise: the accumulated OR, over `index` in `range(img_indexed.max())`, of
whether the dilated indicator differs from the indicator at this voxel. -/
def img_membrane_mask (Z Y X : Nat) (g : LGrid) (z y x : Int) : Bool :=
  (List.range (gridMax Z Y X g)).foldl
    (fun acc index =>
      acc || (binary_dilation (indicator Z Y X g index) z y x != indicator Z Y X g index z y x))
    false

/-- Modelled from the spec's words, for comparison with the source (claim C1):
the membrane mask with a dilation pass for every label value from 0 through
the maximum label inclusive ("0 through max label, excluding nothing"). -/
def membrane_mask_spec (Z Y X : Nat) (g : LGrid) (z y x : Int) : Bool :=
  (List.range (gridMax Z Y X g + 1)).foldl
    (fun acc index =>
      acc || (binary_dilation (indicator Z Y X g index) z y x != indicator Z Y X g index z y x))
    false

/-- The cell mask of the notebooks:

    img_cell_mask = img_indexed != 0
    img_cell_mask = img_cell_mask & (img_cell_mask != img_membrane_mask)
-/
def img_cell_mask (g : LGrid) (membrane_mask : BMask) (z y x : Int) : Bool :=
  let cell := g z y x != 0
  cell && (cell != membrane_mask z y x)

/-- The Compartment Grid (`img` in the notebooks): sequential masked
assignment into a zero array, the membrane write coming last:

    img = np.zeros(img_cell_mask.shape, dtype=np.uint8)
    img[img_cell_mask] = 1
    img[img_membrane_mask] = 2
-/
def img (cell_mask membrane_mask : BMask) (z y x : Int) : Nat :=
  if membrane_mask z y x then 2 else if cell_mask z y x then 1 else 0

/-- `np.random.randint(low, high)`: the float bounds are cast to integers
(all call sites in the notebooks use nonnegative bounds, where numpy's
truncation toward zero agrees with the floor), a `ValueError` is raised when
the resulting range is empty, and otherwise some integer in `[low, high)` is
returned; which one is determined here by the externally supplied raw draw. -/
def randint (low high : ℚ) (draw : Int) : Except String Int :=
  if ⌊high⌋ ≤ ⌊low⌋ then .error "ValueError: low >= high"
  else .ok (⌊low⌋ + draw.emod (⌊high⌋ - ⌊low⌋))

/-- `np.random.uniform(low, high)` applied to one raw draw `u` (nominally in
`[0, 1)`): never raises. -/
def uniform (low high : ℚ) (u : ℚ) : ℚ :=
  low + (high - low) * u

/-- The raw pseudo-random draws consumed by one iteration of the `spheres`
loop: three for the centre (`np.random.randint(2, n_pixels - 2, 3)`), one for
each radius, three for the deformation. -/
structure SphereDraws where
  cz : Int
  cy : Int
  cx : Int
  nr : Int
  cr : Int
  uz : ℚ
  uy : ℚ
  ux : ℚ

/-- The parameters sampled for one sphere by the loop body of `spheres`. -/
structure SampledSphere where
  center : Int × Int × Int
  nuclear_radius : Int
  cell_radius : Int
  deformation : ℚ × ℚ × ℚ

/-- The sampling statements of one iteration of the `spheres` loop:

    center = np.random.randint(2, n_pixels - 2, 3)
    nuclear_radius = np.random.randint(1, max_radius / 2)
    cell_radius = np.random.randint(1.5 * nuclear_radius, max_radius)
    deformation = np.random.uniform(1 / max_deform, max_deform, 3)

(`cell_radius` is sampled but never used to paint voxels; its range check can
still raise). The single 3-draw `randint` call for the centre checks its range
once; three calls with the same bounds have the same error behaviour. -/
def sample_sphere (n_pixels : Nat) (max_radius max_deform : ℚ)
    (d : SphereDraws) : Except String SampledSphere := do
  let cz ← randint 2 ((n_pixels : ℚ) - 2) d.cz
  let cy ← randint 2 ((n_pixels : ℚ) - 2) d.cy
  let cx ← randint 2 ((n_pixels : ℚ) - 2) d.cx
  let nuclear_radius ← randint 1 (max_radius / 2) d.nr
  let cell_radius ← randint (3 / 2 * (nuclear_radius : ℚ)) max_radius d.cr
  let deformation := (uniform (1 / max_deform) max_deform d.uz,
                      uniform (1 / max_deform) max_deform d.uy,
                      uniform (1 / max_deform) max_deform d.ux)
  return ⟨(cz, cy, cx), nuclear_radius, cell_radius, deformation⟩

/-- `sphere_mask(grid_shape, center, radius, deformation)` of the 3D notebook:
the boolean grid of voxels satisfying the weighted-distance ellipsoid
inequality

    dx * (x - x0) ** 2 + dy * (y - y0) ** 2 + dz * (z - z0) ** 2 <= radius ** 2

(as a numpy array it exists only at in-bounds voxels). -/
def sphere_mask (Z Y X : Nat) (center : Int × Int × Int) (radius : ℚ)
    (deformation : ℚ × ℚ × ℚ) (z y x : Int) : Bool :=
  let z0 := center.1
  let y0 := center.2.1
  let x0 := center.2.2
  let dz := deformation.1
  let dy := deformation.2.1
  let dx := deformation.2.2
  inBounds Z Y X z y x &&
    decide (dx * ((x : ℚ) - (x0 : ℚ)) ^ 2 + dy * ((y : ℚ) - (y0 : ℚ)) ^ 2 +
      dz * ((z : ℚ) - (z0 : ℚ)) ^ 2 ≤ radius ^ 2)

/-- One iteration of the `spheres` loop: sample, then

    voxels[sphere_mask(voxels.shape, center, nuclear_radius, deformation)] = n_sphere
-/
def spheres_step (n_pixels : Nat) (max_radius max_deform : ℚ) (n_sphere : Nat)
    (d : SphereDraws) (voxels : LGrid) : Except String LGrid := do
  let s ← sample_sphere n_pixels max_radius max_deform d
  return fun z y x =>
    if sphere_mask n_pixels n_pixels n_pixels s.center (s.nuclear_radius : ℚ)
        s.deformation z y x
    then n_sphere else voxels z y x

/-- The loop `for n_sphere in range(1, n_spheres + 1)` of `spheres`, running
iterations `n_sphere, n_sphere + 1, ...` for `remaining` steps. -/
def spheres_go (n_pixels : Nat) (max_radius max_deform : ℚ)
    (draws : Nat → SphereDraws) :
    Nat → Nat → LGrid → Except String LGrid
  | _, 0, voxels => .ok voxels
  | n_sphere, r + 1, voxels => do
      let voxels ← spheres_step n_pixels max_radius max_deform n_sphere
        (draws n_sphere) voxels
      spheres_go n_pixels max_radius max_deform draws (n_sphere + 1) r voxels

/-- `spheres(n_pixels, n_spheres, max_radius, max_deform)` of the 3D notebook:
a zero `(n_pixels)³` Label Grid painted by `n_spheres` loop iterations, the
pseudo-random draws supplied externally as the stream `draws` (indexed by
`n_sphere`). -/
def spheres (n_pixels n_spheres : Nat) (max_radius max_deform : ℚ)
    (draws : Nat → SphereDraws) : Except String LGrid :=
  spheres_go n_pixels max_radius max_deform draws 1 n_spheres fun _ _ _ => 0

/-- Whether the ellipsoid painted by the iteration with draws `d` covers the
voxel `(z, y, x)` (false when sampling raises). -/
def covers (n_pixels : Nat) (max_radius max_deform : ℚ) (d : SphereDraws)
    (z y x : Int) : Bool :=
  match sample_sphere n_pixels max_radius max_deform d with
  | .ok s => sphere_mask n_pixels n_pixels n_pixels s.center
      (s.nuclear_radius : ℚ) s.deformation z y x
  | .error _ => false

/-- An all-zero draw stream, one concrete instance of the pseudo-random
state. -/
def zeroDraws : Nat → SphereDraws := fun _ => ⟨0, 0, 0, 0, 0, 0, 0, 0⟩

/-- The empty Label Grid (all voxels zero). -/
def zeroGrid : LGrid := fun _ _ _ => 0

/-- A concrete 5×1×1 Label Grid holding a single voxel of label 1 at
`z = 2`. -/
def gLine : LGrid := fun z _ _ => if z = 2 then 1 else 0

/-- The Label Grid painted by one `spheres` iteration on a 6³ grid with the
all-zero draws, `max_radius = 6` and `max_deform = 1`: the deformation-(1,1,1)
ball of radius 1 at centre `(2, 2, 2)` carries label 1. -/
def vOne : LGrid := fun z y x =>
  if sphere_mask 6 6 6 (2, 2, 2) ((1 : Int) : ℚ) (1, 1, 1) z y x then 1 else 0

/-! ### Helper lemmas about the membrane extraction loop -/

theorem foldl_or_eq_any (f : Nat → Bool) (l : List Nat) (b : Bool) :
    l.foldl (fun acc k => acc || f k) b = (b || l.any f) := by
  induction l generalizing b with
  | nil => simp
  | cons a t ih => simp [List.foldl_cons, ih, Bool.or_assoc]

/-- Pointwise characterisation of the accumulation loop of the Membrane
Extractor: a voxel is flagged exactly when some pass with
`index ∈ range(img_indexed.max())` sees the dilated indicator differ from the
indicator there. -/
theorem img_membrane_mask_eq_true_iff (Z Y X : Nat) (g : LGrid) (z y x : Int) :
    img_membrane_mask Z Y X g z y x = true ↔
      ∃ k < gridMax Z Y X g,
        binary_dilation (indicator Z Y X g k) z y x ≠ indicator Z Y X g k z y x := by
  unfold img_membrane_mask
  rw [foldl_or_eq_any]
  simp [List.any_eq_true, bne_iff_ne]

/-- One `binary_dilation` pass is extensive: its structuring element contains
the origin, so every set input voxel stays set. -/
theorem binary_dilation_extensive (m : BMask) (z y x : Int) (h : m z y x = true) :
    binary_dilation m z y x = true := by
  unfold binary_dilation
  rw [List.any_eq_true]
  exact ⟨(0, 0, 0), by simp [structOffsets], by simpa using h⟩

theorem foldl_max_zeroGrid (l : List (Int × Int × Int)) (b : Nat) :
    l.foldl (fun m p => max m (zeroGrid p.1 p.2.1 p.2.2)) b = b := by
  induction l generalizing b with
  | nil => rfl
  | cons a t ih => simp [List.foldl_cons, zeroGrid, ih]

theorem gridMax_zeroGrid (Z Y X : Nat) : gridMax Z Y X zeroGrid = 0 :=
  foldl_max_zeroGrid _ 0

/-! ### Claims about the Membrane Extractor and the Compartment Classifier -/

/-- C1, counterexample: on the 5×1×1 grid `gLine` (one voxel of the maximum
label 1 at `z = 2`) the code's loop `for index in range(img_indexed.max())`
never runs the pass of label 1, although that pass would flag voxel
`(1, 0, 0)` (its dilated indicator differs from the indicator there); the
claimed inclusive loop (`membrane_mask_spec`) does flag it. So the claim that
the maximum label also gets a pass is false at this input. -/
theorem c1_counterexample :
    gridMax 5 1 1 gLine = 1 ∧
    binary_dilation (indicator 5 1 1 gLine 1) 1 0 0 ≠ indicator 5 1 1 gLine 1 1 0 0 ∧
    img_membrane_mask 5 1 1 gLine 1 0 0 = false ∧
    membrane_mask_spec 5 1 1 gLine 1 0 0 = true := by decide

/-- C1, amended: the Membrane Extractor performs its per-label dilation pass
exactly for the label values `0` through `max - 1` (Python's
`range(img_indexed.max())`); the maximum label's own pass is skipped. Each
pass that runs builds the binary indicator, dilates it once, and ORs into the
Membrane Mask every voxel where the dilated indicator differs from the
original; the mask is exactly the union of those passes. -/
theorem c1_membrane_loop_range (Z Y X : Nat) (g : LGrid) (z y x : Int) :
    img_membrane_mask Z Y X g z y x = true ↔
      ∃ k < gridMax Z Y X g,
        binary_dilation (indicator Z Y X g k) z y x ≠ indicator Z Y X g k z y x :=
  img_membrane_mask_eq_true_iff Z Y X g z y x

/-- C3: for every Label Grid and Membrane Mask, every voxel of the
Compartment Grid holds one of exactly the three values 0, 1, 2; no voxel is
simultaneously classified cell-interior and membrane (the cell mask and the
membrane mask are disjoint); and the membrane classification takes precedence
wherever the Membrane Mask is set. -/
theorem c3_compartment_invariant (g : LGrid) (mm : BMask) (z y x : Int) :
    (img (img_cell_mask g mm) mm z y x = 0 ∨ img (img_cell_mask g mm) mm z y x = 1 ∨
      img (img_cell_mask g mm) mm z y x = 2) ∧
    (¬ (img_cell_mask g mm z y x = true ∧ mm z y x = true)) ∧
    (mm z y x = true → img (img_cell_mask g mm) mm z y x = 2) := by
  unfold img img_cell_mask
  cases hmm : mm z y x <;> cases hg : (g z y x != 0) <;> simp [hmm, hg]

/-- C4: for every Label Grid and Membrane Mask, a voxel of the Compartment
Grid is 2 exactly when it is flagged in the Membrane Mask, 1 exactly when its
label is nonzero and it is not flagged, and 0 exactly otherwise. -/
theorem c4_classification (g : LGrid) (mm : BMask) (z y x : Int) :
    (img (img_cell_mask g mm) mm z y x = 2 ↔ mm z y x = true) ∧
    (img (img_cell_mask g mm) mm z y x = 1 ↔ (g z y x ≠ 0 ∧ mm z y x = false)) ∧
    (img (img_cell_mask g mm) mm z y x = 0 ↔ (g z y x = 0 ∧ mm z y x = false)) := by
  unfold img img_cell_mask
  cases hmm : mm z y x <;> by_cases hg : g z y x = 0 <;> simp [hmm, hg]

/-- C6: every voxel flagged in the Membrane Mask has, within one
structuring-element offset, an in-bounds voxel carrying a different label
(so it lies within one structuring-element distance of some labeled object's
boundary — the two differing labels cannot both be background), and relative
to any label whose pass flagged it, the voxel itself was unlabeled or
differently labeled before dilation. -/
theorem c6_membrane_near_boundary (Z Y X : Nat) (g : LGrid) (z y x : Int)
    (hin : inBounds Z Y X z y x = true)
    (hm : img_membrane_mask Z Y X g z y x = true) :
    (∃ o ∈ structOffsets,
        inBounds Z Y X (z + o.1) (y + o.2.1) (x + o.2.2) = true ∧
        g (z + o.1) (y + o.2.1) (x + o.2.2) ≠ g z y x) ∧
    (∀ k, binary_dilation (indicator Z Y X g k) z y x ≠ indicator Z Y X g k z y x →
        g z y x ≠ k) := by
  have hflag_ind : ∀ k,
      binary_dilation (indicator Z Y X g k) z y x ≠ indicator Z Y X g k z y x →
      indicator Z Y X g k z y x = false := by
    intro k hk
    cases hv : indicator Z Y X g k z y x with
    | false => rfl
    | true => exact absurd (by rw [binary_dilation_extensive _ _ _ _ hv, hv]) hk
  have hne : ∀ k, indicator Z Y X g k z y x = false → g z y x ≠ k := by
    intro k hk hgk
    rw [indicator, hin, hgk] at hk
    simp at hk
  refine ⟨?_, fun k hk => hne k (hflag_ind k hk)⟩
  obtain ⟨k, _, hk⟩ := (img_membrane_mask_eq_true_iff Z Y X g z y x).mp hm
  have hindf := hflag_ind k hk
  have hdil : binary_dilation (indicator Z Y X g k) z y x = true := by
    cases hd : binary_dilation (indicator Z Y X g k) z y x with
    | true => rfl
    | false => exact absurd (by rw [hd, hindf]) hk
  rw [binary_dilation, List.any_eq_true] at hdil
  obtain ⟨o, ho, hio⟩ := hdil
  rw [indicator, Bool.and_eq_true, beq_iff_eq] at hio
  exact ⟨o, ho, hio.1, by rw [hio.2]; exact fun hh => hne k hindf hh.symm⟩

/-- C7: an empty Label Grid (all voxels zero) yields an all-false Membrane
Mask (the pass loop body never runs, as `img_indexed.max()` is 0) and an
all-zero Compartment Grid. -/
theorem c7_empty_grid (Z Y X : Nat) (z y x : Int) :
    img_membrane_mask Z Y X zeroGrid z y x = false ∧
    img (img_cell_mask zeroGrid (img_membrane_mask Z Y X zeroGrid))
      (img_membrane_mask Z Y X zeroGrid) z y x = 0 := by
  have hmm : img_membrane_mask Z Y X zeroGrid z y x = false := by
    unfold img_membrane_mask
    rw [gridMax_zeroGrid]
    simp
  exact ⟨hmm, by unfold img img_cell_mask; simp [hmm, zeroGrid]⟩

/-- C8: the Membrane Extractor is a deterministic function of the Label Grid
(with the structuring element fixed, as in the source): two runs on equal
inputs produce identical Membrane Masks. -/
theorem c8_deterministic (Z Y X : Nat) (g₁ g₂ : LGrid) (h : g₁ = g₂) :
    img_membrane_mask Z Y X g₁ = img_membrane_mask Z Y X g₂ := by rw [h]

/-- Witness for C8 at the concrete grid `gLine`. -/
theorem c8_witness : img_membrane_mask 5 1 1 gLine = img_membrane_mask 5 1 1 gLine :=
  c8_deterministic 5 1 1 gLine gLine rfl

/-- C9: when the maximum label is at least 1, the label-0 pass runs, so every
in-bounds voxel with a nonzero label that has an in-bounds background
(label 0) voxel within one structuring-element offset is flagged in the
Membrane Mask: the shell includes the outermost layer of labeled voxels. -/
theorem c9_inner_shell (Z Y X : Nat) (g : LGrid) (z y x : Int)
    (hmax : 1 ≤ gridMax Z Y X g)
    (hin : inBounds Z Y X z y x = true)
    (hlab : g z y x ≠ 0)
    (hbg : ∃ o ∈ structOffsets,
        inBounds Z Y X (z + o.1) (y + o.2.1) (x + o.2.2) = true ∧
        g (z + o.1) (y + o.2.1) (x + o.2.2) = 0) :
    img_membrane_mask Z Y X g z y x = true := by
  rw [img_membrane_mask_eq_true_iff]
  refine ⟨0, hmax, ?_⟩
  have hind : indicator Z Y X g 0 z y x = false := by
    rw [indicator, hin]
    simpa using hlab
  have hdil : binary_dilation (indicator Z Y X g 0) z y x = true := by
    obtain ⟨o, ho, hinb, hzero⟩ := hbg
    rw [binary_dilation, List.any_eq_true]
    exact ⟨o, ho, by rw [indicator, hinb, hzero]; rfl⟩
  rw [hdil, hind]
  simp

/-- Witness for C9 at the concrete grid `gLine`, voxel `(2, 0, 0)` (its
`z - 1` neighbour is in-bounds background). -/
theorem c9_witness :
    1 ≤ gridMax 5 1 1 gLine ∧ gLine 2 0 0 ≠ 0 ∧
    img_membrane_mask 5 1 1 gLine 2 0 0 = true :=
  ⟨by decide, by decide,
    c9_inner_shell 5 1 1 gLine 2 0 0 (by decide) (by decide) (by decide)
      ⟨(-1, 0, 0), by decide, by decide, by decide⟩⟩

/-- Witness for C6 at the concrete grid `gLine`, voxel `(2, 0, 0)`. -/
theorem c6_witness :
    inBounds 5 1 1 2 0 0 = true ∧ img_membrane_mask 5 1 1 gLine 2 0 0 = true ∧
    ((∃ o ∈ structOffsets,
        inBounds 5 1 1 (2 + o.1) (0 + o.2.1) (0 + o.2.2) = true ∧
        gLine (2 + o.1) (0 + o.2.1) (0 + o.2.2) ≠ gLine 2 0 0) ∧
     (∀ k, binary_dilation (indicator 5 1 1 gLine k) 2 0 0 ≠ indicator 5 1 1 gLine k 2 0 0 →
        gLine 2 0 0 ≠ k)) :=
  ⟨by decide, by decide, c6_membrane_near_boundary 5 1 1 gLine 2 0 0 (by decide) (by decide)⟩

/-! ### Helper lemmas about the Geometry Synthesizer -/

theorem except_bind_ok {ε α β : Type} (a : α) (f : α → Except ε β) :
    (Except.ok a : Except ε α) >>= f = f a := rfl

theorem except_bind_error {ε α β : Type} (e : ε) (f : α → Except ε β) :
    (Except.error e : Except ε α) >>= f = (Except.error e : Except ε β) := rfl

theorem except_pure_eq {ε α : Type} (a : α) :
    (pure a : Except ε α) = Except.ok a := rfl

/-- A successful `randint low high` returns a value in `[⌊low⌋, ⌊high⌋)`. -/
theorem randint_ok_bounds (low high : ℚ) (draw m : Int)
    (h : randint low high draw = .ok m) : ⌊low⌋ ≤ m ∧ m < ⌊high⌋ := by
  unfold randint at h
  split at h
  · exact absurd h (by simp)
  · next hlt =>
    injection h with hm
    have h0 : (0 : Int) ≤ draw.emod (⌊high⌋ - ⌊low⌋) :=
      Int.emod_nonneg draw (by omega)
    have h1 : draw.emod (⌊high⌋ - ⌊low⌋) < ⌊high⌋ - ⌊low⌋ :=
      Int.emod_lt_of_pos draw (by omega)
    omega

/-- `randint` with an empty integer range raises. -/
theorem randint_degenerate (low high : ℚ) (draw : Int) (h : ⌊high⌋ ≤ ⌊low⌋) :
    randint low high draw = .error "ValueError: low >= high" := by
  unfold randint
  rw [if_pos h]

/-- `randint` with a nonempty integer range succeeds. -/
theorem randint_nondegenerate (low high : ℚ) (draw : Int) (h : ⌊low⌋ < ⌊high⌋) :
    randint low high draw = .ok (⌊low⌋ + draw.emod (⌊high⌋ - ⌊low⌋)) := by
  unfold randint
  rw [if_neg (by omega)]

theorem floor_natCast_sub_two (n : Nat) : ⌊(n : ℚ) - 2⌋ = (n : Int) - 2 := by
  rw [show ((n : ℚ) - 2) = (((n : Int) - 2 : Int) : ℚ) by push_cast; ring,
    Int.floor_intCast]

/-- A successful loop iteration paints the sampled ellipsoid with the current
sphere index and leaves every other voxel unchanged. -/
theorem spheres_step_paint (n_pixels : Nat) (mr md : ℚ) (n : Nat) (d : SphereDraws)
    (v v' : LGrid) (h : spheres_step n_pixels mr md n d v = .ok v') :
    ∃ s, sample_sphere n_pixels mr md d = .ok s ∧
      v' = fun z y x =>
        if sphere_mask n_pixels n_pixels n_pixels s.center (s.nuclear_radius : ℚ)
            s.deformation z y x
        then n else v z y x := by
  unfold spheres_step at h
  cases hs : sample_sphere n_pixels mr md d with
  | error e => rw [hs, except_bind_error] at h; exact Except.noConfusion h
  | ok s =>
    rw [hs] at h
    simp only [except_bind_ok, except_pure_eq] at h
    injection h with h
    exact ⟨s, rfl, h.symm⟩

/-- `covers` agrees with the painted ellipsoid when sampling succeeded. -/
theorem covers_eq_mask (n_pixels : Nat) (mr md : ℚ) (d : SphereDraws)
    (s : SampledSphere) (hs : sample_sphere n_pixels mr md d = .ok s) (z y x : Int) :
    covers n_pixels mr md d z y x =
      sphere_mask n_pixels n_pixels n_pixels s.center (s.nuclear_radius : ℚ)
        s.deformation z y x := by
  unfold covers
  rw [hs]

/-- The centre sampled by a successful iteration lies in `[2, n_pixels - 2)`
on every axis. -/
theorem sample_sphere_center_bounds (n_pixels : Nat) (mr md : ℚ) (d : SphereDraws)
    (s : SampledSphere) (h : sample_sphere n_pixels mr md d = .ok s) :
    2 ≤ s.center.1 ∧ s.center.1 < (n_pixels : Int) - 2 ∧
    2 ≤ s.center.2.1 ∧ s.center.2.1 < (n_pixels : Int) - 2 ∧
    2 ≤ s.center.2.2 ∧ s.center.2.2 < (n_pixels : Int) - 2 := by
  unfold sample_sphere at h
  cases hcz : randint 2 ((n_pixels : ℚ) - 2) d.cz with
  | error e => rw [hcz, except_bind_error] at h; exact Except.noConfusion h
  | ok cz =>
  rw [hcz] at h
  simp only [except_bind_ok] at h
  cases hcy : randint 2 ((n_pixels : ℚ) - 2) d.cy with
  | error e => rw [hcy, except_bind_error] at h; exact Except.noConfusion h
  | ok cy =>
  rw [hcy] at h
  simp only [except_bind_ok] at h
  cases hcx : randint 2 ((n_pixels : ℚ) - 2) d.cx with
  | error e => rw [hcx, except_bind_error] at h; exact Except.noConfusion h
  | ok cx =>
  rw [hcx] at h
  simp only [except_bind_ok] at h
  cases hnr : randint 1 (mr / 2) d.nr with
  | error e => rw [hnr, except_bind_error] at h; exact Except.noConfusion h
  | ok nr =>
  rw [hnr] at h
  simp only [except_bind_ok] at h
  cases hcr : randint (3 / 2 * (nr : ℚ)) mr d.cr with
  | error e => rw [hcr, except_bind_error] at h; exact Except.noConfusion h
  | ok cr =>
  rw [hcr] at h
  simp only [except_bind_ok, except_pure_eq] at h
  obtain rfl : (⟨(cz, cy, cx), nr, cr,
      (uniform (1 / md) md d.uz, uniform (1 / md) md d.uy, uniform (1 / md) md d.ux)⟩ :
        SampledSphere) = s := by
    injection h
  have h2 : ⌊(2 : ℚ)⌋ = 2 := by norm_num
  have hfl := floor_natCast_sub_two n_pixels
  have b1 := randint_ok_bounds _ _ _ _ hcz
  have b2 := randint_ok_bounds _ _ _ _ hcy
  have b3 := randint_ok_bounds _ _ _ _ hcx
  rw [h2, hfl] at b1 b2 b3
  exact ⟨b1.1, b1.2, b2.1, b2.2, b3.1, b3.2⟩

/-- The centre voxel always satisfies the ellipsoid inequality (the weighted
distance there is 0 ≤ radius²), so it is in the mask whenever it is
in-bounds. -/
theorem sphere_mask_center (Z Y X : Nat) (z0 y0 x0 : Int) (radius : ℚ)
    (deformation : ℚ × ℚ × ℚ) (hin : inBounds Z Y X z0 y0 x0 = true) :
    sphere_mask Z Y X (z0, y0, x0) radius deformation z0 y0 x0 = true := by
  unfold sphere_mask
  rw [hin]
  simpa using sq_nonneg radius

/-- The invariant of the painting loop `spheres_go`: each voxel either keeps
its initial value or holds one of the iteration indices run so far; a voxel
covered by no iteration keeps its initial value; and a voxel whose last
covering iteration is `i` ends with value `i` (later writes win). -/
theorem spheres_go_spec (n_pixels : Nat) (mr md : ℚ) (draws : Nat → SphereDraws) :
    ∀ (r start : Nat) (v0 v : LGrid),
      spheres_go n_pixels mr md draws start r v0 = .ok v →
      ∀ z y x : Int,
        (v z y x = v0 z y x ∨ (start ≤ v z y x ∧ v z y x < start + r)) ∧
        ((∀ i, start ≤ i → i < start + r →
            covers n_pixels mr md (draws i) z y x = false) →
          v z y x = v0 z y x) ∧
        (∀ i, start ≤ i → i < start + r →
          covers n_pixels mr md (draws i) z y x = true →
          (∀ j, i < j → j < start + r →
            covers n_pixels mr md (draws j) z y x = false) →
          v z y x = i) := by
  intro r
  induction r with
  | zero =>
    intro start v0 v h z y x
    simp only [spheres_go] at h
    injection h with h
    subst h
    exact ⟨Or.inl rfl, fun _ => rfl, fun i h1 h2 => by omega⟩
  | succ r ih =>
    intro start v0 v h z y x
    simp only [spheres_go] at h
    cases hstep : spheres_step n_pixels mr md start (draws start) v0 with
    | error e => rw [hstep, except_bind_error] at h; exact Except.noConfusion h
    | ok v1 =>
    rw [hstep] at h
    have hrest : spheres_go n_pixels mr md draws (start + 1) r v1 = .ok v := by
      simpa only [except_bind_ok] using h
    obtain ⟨s, hs, hv1⟩ := spheres_step_paint _ _ _ _ _ _ _ hstep
    have hv1p : v1 z y x = if covers n_pixels mr md (draws start) z y x then start
        else v0 z y x := by
      rw [hv1, covers_eq_mask _ _ _ _ _ hs]
    have IH := ih (start + 1) v1 v hrest z y x
    refine ⟨?_, ?_, ?_⟩
    · rcases IH.1 with h1 | h1
      · rw [h1, hv1p]
        by_cases hc : covers n_pixels mr md (draws start) z y x = true
        · rw [if_pos hc]; right; omega
        · rw [if_neg hc]; left; rfl
      · right; omega
    · intro hnone
      have hstart : covers n_pixels mr md (draws start) z y x = false :=
        hnone start (le_refl start) (by omega)
      have := IH.2.1 (fun i hi1 hi2 => hnone i (by omega) (by omega))
      rw [this, hv1p, if_neg (by rw [hstart]; exact Bool.false_ne_true)]
    · intro i hi1 hi2 hcov hlater
      rcases Nat.lt_or_ge start i with hlt | hge
      · exact IH.2.2 i (by omega) (by omega) hcov
          (fun j hj1 hj2 => hlater j hj1 (by omega))
      · have hieq : i = start := by omega
        subst hieq
        have hnone : ∀ j, i + 1 ≤ j → j < i + 1 + r →
            covers n_pixels mr md (draws j) z y x = false :=
          fun j hj1 hj2 => hlater j (by omega) (by omega)
        rw [IH.2.1 hnone, hv1p, if_pos hcov]

/-! ### Concrete runs of the Geometry Synthesizer -/

/-- The sampling of the all-zero draw on a 6³ grid with `max_radius = 6` and
`max_deform = 1`: centre `(2, 2, 2)`, nuclear radius 1, cell radius 1,
deformation `(1, 1, 1)`. -/
theorem sample_sphere_six :
    sample_sphere 6 6 1 (zeroDraws 1) = .ok ⟨(2, 2, 2), 1, 1, (1, 1, 1)⟩ := by
  norm_num [sample_sphere, randint, uniform, zeroDraws, Bind.bind, Except.bind,
    Pure.pure, Except.pure]

/-- The single loop iteration of the run above paints `vOne`. -/
theorem spheres_step_six :
    spheres_step 6 6 1 1 (zeroDraws 1) zeroGrid = .ok vOne := by
  unfold spheres_step
  rw [sample_sphere_six]
  simp only [except_bind_ok, except_pure_eq]
  rfl

/-- The full run `spheres(6, 1, 6, 1)` with the all-zero draws returns
`vOne`. -/
theorem spheres_six : spheres 6 1 6 1 zeroDraws = .ok vOne := by
  unfold spheres
  simp only [spheres_go]
  rw [show (fun _ _ _ => 0 : LGrid) = zeroGrid from rfl, spheres_step_six, except_bind_ok]

theorem floor_two_half_le_one : ⌊(2 : ℚ) / 2⌋ ≤ 1 := by norm_num

/-! ### Claims about the Geometry Synthesizer -/

/-- C2, counterexample: with `max_radius = 2` the nuclear-radius range is
`randint(1, 1)`, which is empty, so the Geometry Synthesizer raises numpy's
ValueError on its very first object instead of silently tolerating the
degenerate range — for every draw stream, here shown at the all-zero one. -/
theorem c2_counterexample :
    spheres 10 1 2 (3 / 2) zeroDraws = .error "ValueError: low >= high" := by
  have hsamp : sample_sphere 10 2 (3 / 2) (zeroDraws 1) =
      .error "ValueError: low >= high" := by
    unfold sample_sphere
    rw [randint_nondegenerate 2 (((10 : Nat) : ℚ) - 2) (zeroDraws 1).cz (by norm_num)]
    simp only [except_bind_ok]
    rw [randint_nondegenerate 2 (((10 : Nat) : ℚ) - 2) (zeroDraws 1).cy (by norm_num)]
    simp only [except_bind_ok]
    rw [randint_nondegenerate 2 (((10 : Nat) : ℚ) - 2) (zeroDraws 1).cx (by norm_num)]
    simp only [except_bind_ok]
    rw [randint_degenerate 1 ((2 : ℚ) / 2) (zeroDraws 1).nr (by norm_num)]
    rw [except_bind_error]
  unfold spheres
  simp only [spheres_go]
  unfold spheres_step
  rw [hsamp, except_bind_error, except_bind_error]

/-- C2 (amended): degenerate radius sampling ranges are not silently
tolerated: whenever the nuclear-radius range is empty (`⌊max_radius / 2⌋ ≤ 1`)
and the generator reaches it (at least one object requested, grid big enough
for the centre range), `spheres` raises numpy's ValueError, for every draw
stream. (An empty object mask indeed contributes no voxels, but it is the
`randint` call that fails first — no silent toleration happens.) -/
theorem c2_degenerate_range_raises (n_pixels n_spheres : Nat) (mr md : ℚ)
    (draws : Nat → SphereDraws)
    (hpix : 5 ≤ n_pixels) (hsph : 1 ≤ n_spheres) (hdeg : ⌊mr / 2⌋ ≤ 1) :
    spheres n_pixels n_spheres mr md draws = .error "ValueError: low >= high" := by
  obtain ⟨r, rfl⟩ : ∃ r, n_spheres = r + 1 := ⟨n_spheres - 1, by omega⟩
  have hflo : ⌊(2 : ℚ)⌋ < ⌊(n_pixels : ℚ) - 2⌋ := by
    rw [floor_natCast_sub_two, show ⌊(2 : ℚ)⌋ = 2 by norm_num]
    omega
  have hone : ⌊mr / 2⌋ ≤ ⌊(1 : ℚ)⌋ := by
    rw [show ⌊(1 : ℚ)⌋ = 1 by norm_num]
    exact hdeg
  have hsamp : sample_sphere n_pixels mr md (draws 1) =
      .error "ValueError: low >= high" := by
    unfold sample_sphere
    rw [randint_nondegenerate 2 ((n_pixels : ℚ) - 2) (draws 1).cz hflo]
    simp only [except_bind_ok]
    rw [randint_nondegenerate 2 ((n_pixels : ℚ) - 2) (draws 1).cy hflo]
    simp only [except_bind_ok]
    rw [randint_nondegenerate 2 ((n_pixels : ℚ) - 2) (draws 1).cx hflo]
    simp only [except_bind_ok]
    rw [randint_degenerate 1 (mr / 2) (draws 1).nr hone]
    rw [except_bind_error]
  unfold spheres
  simp only [spheres_go]
  unfold spheres_step
  rw [hsamp, except_bind_error, except_bind_error]

/-- Witness for C2 (amended) at `n_pixels = 10`, one sphere,
`max_radius = 2`, `max_deform = 3/2`, all-zero draws. -/
theorem c2_witness :
    5 ≤ 10 ∧ 1 ≤ 1 ∧ ⌊(2 : ℚ) / 2⌋ ≤ 1 ∧
    spheres 10 1 2 (3 / 2) zeroDraws = .error "ValueError: low >= high" :=
  ⟨by decide, by decide, floor_two_half_le_one,
    c2_degenerate_range_raises 10 1 2 (3 / 2) zeroDraws (by decide) (by decide)
      floor_two_half_le_one⟩

/-- C5: every Label Grid returned by the Geometry Synthesizer holds, at each
voxel, either 0 or one of the object indices 1..N of the run; a voxel covered
by no sampled ellipsoid stays 0; and a voxel covered by several sampled
ellipsoids ends with the index of the last (largest-index) object covering
it — later objects take precedence on overlap. -/
theorem c5_label_values (n_pixels N : Nat) (mr md : ℚ) (draws : Nat → SphereDraws)
    (v : LGrid) (hok : spheres n_pixels N mr md draws = .ok v) (z y x : Int) :
    (v z y x = 0 ∨ (1 ≤ v z y x ∧ v z y x ≤ N)) ∧
    ((∀ i, 1 ≤ i → i ≤ N → covers n_pixels mr md (draws i) z y x = false) →
      v z y x = 0) ∧
    (∀ i, 1 ≤ i → i ≤ N → covers n_pixels mr md (draws i) z y x = true →
      (∀ j, i < j → j ≤ N → covers n_pixels mr md (draws j) z y x = false) →
      v z y x = i) := by
  have h := spheres_go_spec n_pixels mr md draws N 1 (fun _ _ _ => 0) v hok z y x
  refine ⟨?_, ?_, ?_⟩
  · rcases h.1 with h1 | h1
    · exact Or.inl h1
    · exact Or.inr ⟨h1.1, by omega⟩
  · intro hnone
    exact h.2.1 fun i hi1 hi2 => hnone i hi1 (by omega)
  · intro i hi1 hi2 hcov hlater
    exact h.2.2 i hi1 (by omega) hcov fun j hj1 hj2 => hlater j hj1 (by omega)

/-- Witness for C5 at the concrete run `spheres(6, 1, 6, 1)` with all-zero
draws. -/
theorem c5_witness :
    spheres 6 1 6 1 zeroDraws = .ok vOne ∧
    (vOne 2 2 2 = 0 ∨ (1 ≤ vOne 2 2 2 ∧ vOne 2 2 2 ≤ 1)) :=
  ⟨spheres_six, (c5_label_values 6 1 6 1 zeroDraws vOne spheres_six 2 2 2).1⟩

/-- C10: the ellipsoid mask of `sphere_mask` contains the centre voxel itself
whenever the centre lies inside the grid (the weighted distance there is
`0 ≤ radius²`, for every deformation triple and every radius); consequently
every successful iteration of the Geometry Synthesizer paints at least one
voxel with its object index — an empty per-object mask never occurs. -/
theorem c10_center_in_mask :
    (∀ (Z Y X : Nat) (z0 y0 x0 : Int) (radius : ℚ) (deformation : ℚ × ℚ × ℚ),
      inBounds Z Y X z0 y0 x0 = true →
      sphere_mask Z Y X (z0, y0, x0) radius deformation z0 y0 x0 = true) ∧
    (∀ (n_pixels : Nat) (mr md : ℚ) (n : Nat) (d : SphereDraws) (v v1 : LGrid),
      spheres_step n_pixels mr md n d v = .ok v1 →
      ∃ z y x, inBounds n_pixels n_pixels n_pixels z y x = true ∧ v1 z y x = n) := by
  refine ⟨sphere_mask_center, ?_⟩
  intro n_pixels mr md n d v v1 h
  obtain ⟨s, hs, hv⟩ := spheres_step_paint _ _ _ _ _ _ _ h
  have hb := sample_sphere_center_bounds _ _ _ _ _ hs
  obtain ⟨⟨cz, cy, cx⟩, snr, scr, sdf⟩ := s
  dsimp only at hb hv
  obtain ⟨b1, b2, b3, b4, b5, b6⟩ := hb
  have hin : inBounds n_pixels n_pixels n_pixels cz cy cx = true := by
    unfold inBounds
    simp only [Bool.and_eq_true, decide_eq_true_eq]
    omega
  refine ⟨cz, cy, cx, hin, ?_⟩
  rw [hv]
  simp [sphere_mask_center n_pixels n_pixels n_pixels cz cy cx (snr : ℚ) sdf hin]

/-- Witness for C10: the centre fact at a concrete mask, and the painted
voxel of the concrete run `spheres_step` on the 6³ grid. -/
theorem c10_witness :
    inBounds 5 1 1 2 0 0 = true ∧
    sphere_mask 5 1 1 (2, 0, 0) 1 (1, 1, 1) 2 0 0 = true ∧
    spheres_step 6 6 1 1 (zeroDraws 1) zeroGrid = .ok vOne ∧
    (∃ z y x, inBounds 6 6 6 z y x = true ∧ vOne z y x = 1) :=
  ⟨by decide, c10_center_in_mask.1 5 1 1 2 0 0 1 (1, 1, 1) (by decide),
   spheres_step_six,
   c10_center_in_mask.2 6 6 1 1 (zeroDraws 1) zeroGrid vOne spheres_step_six⟩

end ToyModels
